import Mathlib

set_option maxHeartbeats 1000000

namespace LocationsOfLines

/-- Exceptions that the line-generation code can raise, together with the two
error kinds named by the specification (which the code itself never raises):
the numpy ValueError from np.random.choice over an empty arange, the numpy
ValueError from a zero slice step, the numpy ValueError from stacking arrays of
mismatched lengths, the NameError from reading the loop variable lines1 before
its first assignment, and the spec-only ConfigurationError and RangeError. -/
inductive PyError where
  | emptyChoiceValueError
  | zeroStepValueError
  | vstackValueError
  | unboundLines1NameError
  | configurationError
  | rangeError
deriving DecidableEq

/-- hardcoded grid resolution, self.number_of_rows_cols = 1000 -/
def number_of_rows_cols : Nat := 1000

/-- size of the coordinate universe, number_of_rows_cols * 3 = 3000 -/
def gridN : Nat := number_of_rows_cols * 3

/-- the fixed coordinate array self.rows_cols = np.arange(3000) -/
def rows_cols : List Nat := List.range gridN

/-- number of elements of the numpy slice arange(gridN)[a::s] for positive step s -/
def sliceLen (a s : Nat) : Nat := (gridN - a + s - 1) / s

/-- the numpy slice arange(gridN)[a::s] for a nonnegative start a and positive step s -/
def posSlice (a s : Nat) : List Nat := (List.range (sliceLen a s)).map (fun i => a + i * s)

/-- numpy normalisation of a possibly negative start index into arange(gridN) -/
def normStart (a : Int) : Nat := if a < 0 then (a + gridN).toNat else a.toNat

/-- the numpy slice arange(gridN)[::-k], taken when a negative density is used as a slice step -/
def negSlice (k : Nat) : List Nat := (List.range (sliceLen 0 k)).map (fun i => (gridN - 1) - i * k)

/-- Shallow embedding of LineFactory._generate_row_col_lines. line_length and
line_gap are the stored (Python int) parameters, raw is the entropy consumed by
np.random.choice over arange(line_length + line_gap), iter is the row or column
index. Returns the along-axis coordinate pairs (lines1) and the orthogonal
pairs (lines2), or the exception the call raises: np.random.choice on an empty
arange when line_length + line_gap is not positive, and np.vstack on
mismatched lengths when the single-element trim does not equalise them. -/
def generateRowColLines (line_length line_gap : Int) (raw : Nat) (iter : Nat) :
    Except PyError (List (Nat × Nat) × List (Nat × Nat)) :=
  if line_length + line_gap ≤ 0 then
    .error PyError.emptyChoiceValueError
  else
    let stepN : Nat := (line_length + line_gap).toNat
    let start_jitter : Nat := raw % stepN
    let coordinates1 := posSlice start_jitter stepN
    let coordinates2 := posSlice (normStart (start_jitter + line_length)) stepN
    let coordinates1 := if coordinates2.length < coordinates1.length then
      coordinates1.dropLast else coordinates1
    if coordinates1.length = coordinates2.length then
      let lines1 := coordinates1.zip coordinates2
      .ok (lines1, List.replicate lines1.length (iter, iter))
    else
      .error PyError.vstackValueError

/-- row or column indices iterated by self.rows_cols[::density] for a nonzero density -/
def rowsFor (density : Int) : List Nat :=
  if 0 < density then posSlice 0 density.toNat else negSlice (-density).toNat

/-- Loop body of LineFactory._generate_all_lines: iterates the selected rows,
threading the index of the next random draw and the accumulated pair lists.
The accumulator starts absent, mirroring the Python local variables lines1 and
lines2 that are first assigned only in the row_col == 0 branch; reading them
before assignment raises a NameError. -/
def allLoop (line_length line_gap : Int) (src : Nat → Nat) :
    List Nat → Nat → Option (List (Nat × Nat) × List (Nat × Nat)) →
    Except PyError (Option (List (Nat × Nat) × List (Nat × Nat)))
  | [], _, acc => .ok acc
  | r :: rs, i, acc =>
    match generateRowColLines line_length line_gap (src i) r with
    | .error e => .error e
    | .ok (a, b) =>
      if r = 0 then
        allLoop line_length line_gap src rs (i + 1) (some (a, b))
      else
        match acc with
        | none => .error PyError.unboundLines1NameError
        | some (l1, l2) => allLoop line_length line_gap src rs (i + 1) (some (l1 ++ a, l2 ++ b))

/-- Shallow embedding of LineFactory._generate_all_lines for a given stored
density: slicing rows_cols with a zero step raises, then the loop runs over the
selected rows, and the final tolist step needs the loop to have assigned the
accumulator at least once. off is the index of the first random draw this call
consumes. -/
def generateAllLines (line_length line_gap density : Int) (src : Nat → Nat) (off : Nat) :
    Except PyError (List (Nat × Nat) × List (Nat × Nat)) :=
  if density = 0 then .error PyError.zeroStepValueError
  else
    match allLoop line_length line_gap src (rowsFor density) off none with
    | .error e => .error e
    | .ok none => .error PyError.unboundLines1NameError
    | .ok (some p) => .ok p

/-- the mutable attributes of a LineFactory object -/
structure LineFactory where
  line_length : Int
  line_gap : Int
  row_density : Int
  column_density : Int
  horizontal_lines_xs : List (Nat × Nat)
  horizontal_lines_ys : List (Nat × Nat)
  vertical_lines_xs : List (Nat × Nat)
  vertical_lines_ys : List (Nat × Nat)
deriving DecidableEq

/-- the four optional keyword arguments of make_lines (None when omitted) -/
structure Args where
  line_length : Option Int
  line_gap : Option Int
  row_density : Option Int
  column_density : Option Int

/-- a make_lines call with every argument left at its None default -/
def noArgs : Args := ⟨none, none, none, none⟩

/-- Python truthiness of an optional integer argument: None and 0 are falsy -/
def truthy : Option Int → Bool
  | none => false
  | some v => v != 0

/-- the four falsy-guarded parameter writes at the top of make_lines; densities
are stored inverted as 100 - value on write -/
def updateParams (s : LineFactory) (a : Args) : LineFactory :=
  { s with
    line_length := if truthy a.line_length then a.line_length.getD 0 else s.line_length
    line_gap := if truthy a.line_gap then a.line_gap.getD 0 else s.line_gap
    row_density := if truthy a.row_density then 100 - a.row_density.getD 0 else s.row_density
    column_density := if truthy a.column_density then 100 - a.column_density.getD 0 else s.column_density }

/-- Shallow embedding of LineFactory.make_lines: the supplied parameters are
written first, then the horizontal and the vertical line sets are recomputed in
that order. On an exception the error value carries the object state at the
moment the exception escapes, so mutations already performed are kept. -/
def make_lines (s : LineFactory) (a : Args) (src : Nat → Nat) :
    Except (PyError × LineFactory) LineFactory :=
  let u := updateParams s a
  match generateAllLines u.line_length u.line_gap u.row_density src 0 with
  | .error e => .error (e, u)
  | .ok (h1, h2) =>
    let u1 := { u with horizontal_lines_xs := h1, horizontal_lines_ys := h2 }
    match generateAllLines u.line_length u.line_gap u.column_density src
        (rowsFor u.row_density).length with
    | .error e => .error (e, u1)
    | .ok (v1, v2) =>
      .ok { u1 with vertical_lines_ys := v1, vertical_lines_xs := v2 }

/-- Shallow embedding of LineFactory.__init__(line_length, line_gap,
column_density, row_density): densities are stored inverted and make_lines runs
immediately; when construction raises, no object exists, so only the exception
is reported. -/
def init (line_length line_gap column_density row_density : Int) (src : Nat → Nat) :
    Except PyError LineFactory :=
  match make_lines ⟨line_length, line_gap, 100 - row_density, 100 - column_density,
      [], [], [], []⟩ noArgs src with
  | .error (e, _) => .error e
  | .ok s => .ok s

/-- value of a successful generator run, with a fallback state for the error case -/
def okOr (e : Except (PyError × LineFactory) LineFactory) (d : LineFactory) : LineFactory :=
  match e with
  | .ok s => s
  | .error _ => d

/-- object state carried by a failed make_lines call (the state on success) -/
def errState (e : Except (PyError × LineFactory) LineFactory) : LineFactory :=
  match e with
  | .ok s => s
  | .error (_, u) => u

/-- whether an Except value is a success -/
def isOkE {ε α : Type} : Except ε α → Bool
  | .ok _ => true
  | .error _ => false

/-- jitter value actually used by a row or column with raw entropy raw -/
def jit (l g raw : Nat) : Nat := raw % (l + g)

/-- number of full segments generated in one row or column -/
def rcN (l g raw : Nat) : Nat := sliceLen (jit l g raw + l) (l + g)

/-- closed form of the along-axis pairs of one row or column -/
def rcLines1 (l g raw : Nat) : List (Nat × Nat) :=
  (List.range (rcN l g raw)).map
    (fun i => (jit l g raw + i * (l + g), jit l g raw + l + i * (l + g)))

/-- closed form of the orthogonal pairs of one row or column -/
def rcLines2 (l g raw iter : Nat) : List (Nat × Nat) :=
  List.replicate (rcN l g raw) (iter, iter)

/-- closed form of the concatenated along-axis pairs over a list of rows -/
def allA (l g : Nat) (src : Nat → Nat) : Nat → List Nat → List (Nat × Nat)
  | _, [] => []
  | i, _ :: rs => rcLines1 l g (src i) ++ allA l g src (i + 1) rs

/-- closed form of the concatenated orthogonal pairs over a list of rows -/
def allB (l g : Nat) (src : Nat → Nat) : Nat → List Nat → List (Nat × Nat)
  | _, [] => []
  | i, r :: rs => rcLines2 l g (src i) r ++ allB l g src (i + 1) rs

/-- a fixed deterministic entropy source used by concrete witnesses -/
def src0 : Nat → Nat := fun _ => 0

/-- a small valid generator state (stored stride 300, stored densities 300) -/
def smallState : LineFactory := ⟨250, 50, 300, 300, [], [], [], []⟩

/-- fallback state for okOr -/
def dfltState : LineFactory := ⟨0, 0, 0, 0, [], [], [], []⟩

/-- a generator state reached by a successful make_lines run, used as the
prior valid state in concrete counterexamples -/
def st1 : LineFactory := okOr (make_lines smallState noArgs src0) dfltState

/-- a make_lines argument bundle whose line_length write makes the stride zero -/
def badArgs : Args := ⟨some (-50), none, none, none⟩

theorem sliceLen_anti {a b : Nat} (s : Nat) (h : a ≤ b) : sliceLen b s ≤ sliceLen a s := by
  unfold sliceLen
  exact Nat.div_le_div_right (by omega)

theorem sliceLen_le_succ (a L s : Nat) (hLs : L ≤ s) (hs : 0 < s) :
    sliceLen a s ≤ sliceLen (a + L) s + 1 := by
  unfold sliceLen
  have h1 : gridN - a + s - 1 ≤ gridN - (a + L) + s - 1 + s := by omega
  calc (gridN - a + s - 1) / s ≤ (gridN - (a + L) + s - 1 + s) / s := Nat.div_le_div_right h1
    _ = (gridN - (a + L) + s - 1) / s + 1 := Nat.add_div_right _ hs

theorem posSlice_length (a s : Nat) : (posSlice a s).length = sliceLen a s := by
  simp [posSlice]

theorem posSlice_mem_lt {a s : Nat} (hs : 0 < s) {x : Nat} (hx : x ∈ posSlice a s) :
    x < gridN := by
  unfold posSlice at hx
  obtain ⟨i, hi, rfl⟩ := List.mem_map.mp hx
  rw [List.mem_range] at hi
  have h3 : (i + 1) * s ≤ gridN - a + s - 1 :=
    (Nat.le_div_iff_mul_le hs).mp hi
  rw [Nat.succ_mul] at h3
  by_cases ha : a < gridN
  · omega
  · exfalso
    unfold sliceLen at hi
    have hz : gridN - a = 0 := by omega
    rw [hz] at hi
    have hzz : (0 + s - 1) / s = 0 := Nat.div_eq_of_lt (by omega)
    omega

theorem zip_map_self {α β γ : Type} (f : α → β) (g : α → γ) :
    ∀ l : List α, (l.map f).zip (l.map g) = l.map (fun i => (f i, g i))
  | [] => rfl
  | x :: xs => by simp [zip_map_self f g xs]

theorem dropLast_map_range {α : Type} (f : Nat → α) (n : Nat) :
    ((List.range (n + 1)).map f).dropLast = (List.range n).map f := by
  rw [List.range_succ, List.map_append]
  simp

/-- with nonnegative parameters and a positive stride, one row or column
generates exactly the closed-form pair lists. -/
theorem generateRowColLines_ok (L G : Int) (hL : 0 ≤ L) (hG : 0 ≤ G) (hs : 0 < L + G)
    (raw iter : Nat) :
    generateRowColLines L G raw iter =
      .ok (rcLines1 L.toNat G.toNat raw, rcLines2 L.toNat G.toNat raw iter) := by
  have hstep : ¬ (L + G ≤ 0) := by omega
  have htn : (L + G).toNat = L.toNat + G.toNat := by omega
  set l := L.toNat with hl
  set g := G.toNat with hg
  have hlg : 0 < l + g := by omega
  have hnorm : normStart (↑(raw % (l + g)) + L) = raw % (l + g) + l := by
    unfold normStart
    rw [if_neg (by omega)]
    omega
  simp only [generateRowColLines, htn, if_neg hstep, hnorm]
  set j := raw % (l + g) with hj
  have hjit : jit l g raw = j := rfl
  have hle : sliceLen (j + l) (l + g) ≤ sliceLen j (l + g) := sliceLen_anti _ (by omega)
  have hlt : sliceLen j (l + g) ≤ sliceLen (j + l) (l + g) + 1 :=
    sliceLen_le_succ j l (l + g) (by omega) hlg
  have hcases : sliceLen j (l + g) = sliceLen (j + l) (l + g) ∨
      sliceLen j (l + g) = sliceLen (j + l) (l + g) + 1 := by omega
  rcases hcases with hcase | hcase
  · have htrim : ¬ ((posSlice (j + l) (l + g)).length < (posSlice j (l + g)).length) := by
      simp only [posSlice_length]
      omega
    rw [if_neg htrim]
    have heq : (posSlice j (l + g)).length = (posSlice (j + l) (l + g)).length := by
      simp only [posSlice_length]
      omega
    rw [if_pos heq]
    unfold posSlice
    rw [hcase, zip_map_self]
    unfold rcLines1 rcLines2 rcN
    rw [hjit]
    simp [add_assoc]
  · have htrim : (posSlice (j + l) (l + g)).length < (posSlice j (l + g)).length := by
      simp only [posSlice_length]
      omega
    rw [if_pos htrim]
    have hdrop : (posSlice j (l + g)).dropLast =
        (List.range (sliceLen (j + l) (l + g))).map (fun i => j + i * (l + g)) := by
      unfold posSlice
      rw [hcase, dropLast_map_range]
    rw [hdrop]
    have heq : ((List.range (sliceLen (j + l) (l + g))).map
        (fun i => j + i * (l + g))).length = (posSlice (j + l) (l + g)).length := by
      simp only [posSlice_length, List.length_map, List.length_range]
    rw [if_pos heq]
    unfold posSlice
    rw [zip_map_self]
    unfold rcLines1 rcLines2 rcN
    rw [hjit]
    simp [add_assoc]

theorem rcLines1_length (l g raw : Nat) : (rcLines1 l g raw).length = rcN l g raw := by
  simp [rcLines1]

theorem rcLines2_length (l g raw iter : Nat) : (rcLines2 l g raw iter).length = rcN l g raw := by
  simp [rcLines2]

theorem rcLines1_mem {l g raw : Nat} (hlg : 0 < l + g) {p : Nat × Nat}
    (hp : p ∈ rcLines1 l g raw) : p.2 = p.1 + l ∧ p.2 < gridN := by
  unfold rcLines1 at hp
  obtain ⟨i, hi, rfl⟩ := List.mem_map.mp hp
  rw [List.mem_range] at hi
  refine ⟨by simp; omega, ?_⟩
  have hmem : jit l g raw + l + i * (l + g) ∈ posSlice (jit l g raw + l) (l + g) := by
    unfold posSlice
    exact List.mem_map.mpr ⟨i, List.mem_range.mpr hi, rfl⟩
  exact posSlice_mem_lt hlg hmem

theorem rcLines2_mem {l g raw iter : Nat} {p : Nat × Nat}
    (hp : p ∈ rcLines2 l g raw iter) : p = (iter, iter) := by
  unfold rcLines2 at hp
  exact List.eq_of_mem_replicate hp

/-- the accumulation loop over rows whose indices are all nonzero appends the
closed-form output of each row to the accumulator. -/
theorem allLoop_app (L G : Int) (hL : 0 ≤ L) (hG : 0 ≤ G) (hs : 0 < L + G) (src : Nat → Nat) :
    ∀ (rows : List Nat), (∀ r ∈ rows, r ≠ 0) → ∀ (i : Nat) (A B : List (Nat × Nat)),
      allLoop L G src rows i (some (A, B)) =
        .ok (some (A ++ allA L.toNat G.toNat src i rows, B ++ allB L.toNat G.toNat src i rows))
  | [], _, i, A, B => by simp [allLoop, allA, allB]
  | r :: rs, hr, i, A, B => by
    have hrow := generateRowColLines_ok L G hL hG hs (src i) r
    have hr0 : ¬ (r = 0) := hr r (by simp)
    simp only [allLoop, hrow]
    rw [if_neg hr0]
    rw [allLoop_app L G hL hG hs src rs (fun x hx => hr x (by simp [hx])) (i + 1)]
    simp [allA, allB, List.append_assoc]

theorem rowsFor_pos_eq (d : Int) (hd : 0 < d) :
    rowsFor d = (List.range (sliceLen 0 d.toNat)).map (fun i => i * d.toNat) := by
  unfold rowsFor posSlice
  rw [if_pos hd]
  simp [Nat.zero_add]

theorem sliceLen_zero_pos (s : Nat) (hs : 0 < s) : 0 < sliceLen 0 s := by
  unfold sliceLen
  have hg : gridN = 3000 := by norm_num [gridN, number_of_rows_cols]
  have h1 : 1 * s ≤ gridN - 0 + s - 1 := by omega
  exact (Nat.le_div_iff_mul_le hs).mpr h1

theorem rowsFor_head (d : Int) (hd : 0 < d) :
    rowsFor d = 0 :: (List.range (sliceLen 0 d.toNat - 1)).map (fun i => (i + 1) * d.toNat) := by
  have hk : 0 < d.toNat := by omega
  obtain ⟨m, hm⟩ : ∃ m, sliceLen 0 d.toNat = m + 1 :=
    ⟨sliceLen 0 d.toNat - 1, by have := sliceLen_zero_pos d.toNat hk; omega⟩
  rw [rowsFor_pos_eq d hd, hm, List.range_succ_eq_map]
  simp [List.map_map, Function.comp, Nat.succ_eq_add_one, hm]

theorem rowsFor_tail_ne_zero (d : Int) (hd : 0 < d) :
    ∀ r ∈ (List.range (sliceLen 0 d.toNat - 1)).map (fun i => (i + 1) * d.toNat), r ≠ 0 := by
  intro r hr
  obtain ⟨i, _, rfl⟩ := List.mem_map.mp hr
  have hk : 0 < d.toNat := by omega
  have hpos : 0 < (i + 1) * d.toNat := Nat.mul_pos (Nat.succ_pos i) hk
  exact hpos.ne'

/-- with nonnegative line parameters, a positive stride and a positive density,
a full line-set generation returns exactly the concatenated closed forms. -/
theorem generateAllLines_ok (L G : Int) (hL : 0 ≤ L) (hG : 0 ≤ G) (hs : 0 < L + G)
    (d : Int) (hd : 0 < d) (src : Nat → Nat) (off : Nat) :
    generateAllLines L G d src off =
      .ok (allA L.toNat G.toNat src off (rowsFor d), allB L.toNat G.toNat src off (rowsFor d)) := by
  have hd0 : ¬ (d = 0) := by omega
  unfold generateAllLines
  rw [if_neg hd0, rowsFor_head d hd]
  have hrow := generateRowColLines_ok L G hL hG hs (src off) 0
  simp only [allLoop, hrow, if_true]
  rw [allLoop_app L G hL hG hs src _ (rowsFor_tail_ne_zero d hd) (off + 1)]
  simp [allA, allB]

/-- with nonnegative updated line parameters, a positive stride and positive
stored densities, make_lines succeeds and returns the state with both line
sets replaced by their closed forms. -/
theorem make_lines_ok (s : LineFactory) (a : Args) (src : Nat → Nat)
    (hL : 0 ≤ (updateParams s a).line_length) (hG : 0 ≤ (updateParams s a).line_gap)
    (hs : 0 < (updateParams s a).line_length + (updateParams s a).line_gap)
    (hr : 0 < (updateParams s a).row_density) (hc : 0 < (updateParams s a).column_density) :
    make_lines s a src = .ok
      { updateParams s a with
        horizontal_lines_xs := allA (updateParams s a).line_length.toNat
          (updateParams s a).line_gap.toNat src 0 (rowsFor (updateParams s a).row_density)
        horizontal_lines_ys := allB (updateParams s a).line_length.toNat
          (updateParams s a).line_gap.toNat src 0 (rowsFor (updateParams s a).row_density)
        vertical_lines_ys := allA (updateParams s a).line_length.toNat
          (updateParams s a).line_gap.toNat src (rowsFor (updateParams s a).row_density).length
          (rowsFor (updateParams s a).column_density)
        vertical_lines_xs := allB (updateParams s a).line_length.toNat
          (updateParams s a).line_gap.toNat src (rowsFor (updateParams s a).row_density).length
          (rowsFor (updateParams s a).column_density) } := by
  simp only [make_lines]
  rw [generateAllLines_ok _ _ hL hG hs _ hr src 0,
    generateAllLines_ok _ _ hL hG hs _ hc src (rowsFor (updateParams s a).row_density).length]

theorem updateParams_noArgs (s : LineFactory) : updateParams s noArgs = s := rfl

theorem updateParams_of_params_eq (s t : LineFactory) (a : Args)
    (h1 : t.line_length = (updateParams s a).line_length)
    (h2 : t.line_gap = (updateParams s a).line_gap)
    (h3 : t.row_density = (updateParams s a).row_density)
    (h4 : t.column_density = (updateParams s a).column_density) :
    updateParams t a = t := by
  unfold updateParams at h1 h2 h3 h4 ⊢
  simp only at h1 h2 h3 h4
  have e1 : (if truthy a.line_length then a.line_length.getD 0 else t.line_length) =
      t.line_length := by
    by_cases hc : truthy a.line_length
    · rw [if_pos hc] at h1 ⊢
      omega
    · rw [if_neg hc]
  have e2 : (if truthy a.line_gap then a.line_gap.getD 0 else t.line_gap) = t.line_gap := by
    by_cases hc : truthy a.line_gap
    · rw [if_pos hc] at h2 ⊢
      omega
    · rw [if_neg hc]
  have e3 : (if truthy a.row_density then 100 - a.row_density.getD 0 else t.row_density) =
      t.row_density := by
    by_cases hc : truthy a.row_density
    · rw [if_pos hc] at h3 ⊢
      omega
    · rw [if_neg hc]
  have e4 : (if truthy a.column_density then 100 - a.column_density.getD 0
      else t.column_density) = t.column_density := by
    by_cases hc : truthy a.column_density
    · rw [if_pos hc] at h4 ⊢
      omega
    · rw [if_neg hc]
  rw [e1, e2, e3, e4]

theorem rowsFor_ne_nil (d : Int) (hd : d ≠ 0) : rowsFor d ≠ [] := by
  unfold rowsFor
  split
  · next hpos =>
    have hk : 0 < d.toNat := by omega
    have := sliceLen_zero_pos d.toNat hk
    simp only [posSlice, ne_eq, List.map_eq_nil_iff, List.range_eq_nil]
    omega
  · next hneg =>
    have hk : 0 < (-d).toNat := by omega
    have := sliceLen_zero_pos (-d).toNat hk
    simp only [negSlice, ne_eq, List.map_eq_nil_iff, List.range_eq_nil]
    omega

theorem allLoop_step_le_zero {L G : Int} (h : L + G ≤ 0) (src : Nat → Nat)
    (r : Nat) (rs : List Nat) (i : Nat)
    (acc : Option (List (Nat × Nat) × List (Nat × Nat))) :
    allLoop L G src (r :: rs) i acc = .error PyError.emptyChoiceValueError := by
  have hrow : generateRowColLines L G (src i) r = .error PyError.emptyChoiceValueError := by
    unfold generateRowColLines
    rw [if_pos h]
  simp only [allLoop, hrow]

theorem generateAllLines_step_le_zero {L G d : Int} (h : L + G ≤ 0) (hd : d ≠ 0)
    (src : Nat → Nat) (off : Nat) :
    generateAllLines L G d src off = .error PyError.emptyChoiceValueError := by
  unfold generateAllLines
  rw [if_neg hd]
  obtain ⟨r, rs, hrr⟩ : ∃ r rs, rowsFor d = r :: rs := by
    cases hc : rowsFor d with
    | nil => exact absurd hc (rowsFor_ne_nil d hd)
    | cons r rs => exact ⟨r, rs, rfl⟩
  rw [hrr, allLoop_step_le_zero h src r rs off none]

theorem make_lines_step_le_zero (s : LineFactory) (a : Args) (src : Nat → Nat)
    (h : (updateParams s a).line_length + (updateParams s a).line_gap ≤ 0)
    (hd : (updateParams s a).row_density ≠ 0) :
    make_lines s a src = .error (PyError.emptyChoiceValueError, updateParams s a) := by
  simp only [make_lines]
  rw [generateAllLines_step_le_zero h hd src 0]

theorem make_lines_zero_density (s : LineFactory) (a : Args) (src : Nat → Nat)
    (hd : (updateParams s a).row_density = 0) :
    make_lines s a src = .error (PyError.zeroStepValueError, updateParams s a) := by
  simp only [make_lines]
  have hga : generateAllLines (updateParams s a).line_length (updateParams s a).line_gap
      (updateParams s a).row_density src 0 = .error PyError.zeroStepValueError := by
    unfold generateAllLines
    rw [if_pos hd]
  rw [hga]

theorem mem_rows_cols {x : Nat} : x ∈ rows_cols ↔ x < gridN := by
  unfold rows_cols
  exact List.mem_range

theorem allA_mem {l g : Nat} {src : Nat → Nat} (hlg : 0 < l + g) :
    ∀ {off : Nat} {rows : List Nat} {p : Nat × Nat},
      p ∈ allA l g src off rows → p.2 = p.1 + l ∧ p.2 < gridN := by
  intro off rows
  induction rows generalizing off with
  | nil => intro p hp; simp [allA] at hp
  | cons r rs ih =>
    intro p hp
    simp only [allA, List.mem_append] at hp
    rcases hp with hp | hp
    · exact rcLines1_mem hlg hp
    · exact ih hp

theorem allB_mem {l g : Nat} {src : Nat → Nat} :
    ∀ {off : Nat} {rows : List Nat} {p : Nat × Nat},
      p ∈ allB l g src off rows → ∃ r ∈ rows, p = (r, r) := by
  intro off rows
  induction rows generalizing off with
  | nil => intro p hp; simp [allB] at hp
  | cons r rs ih =>
    intro p hp
    simp only [allB, List.mem_append] at hp
    rcases hp with hp | hp
    · exact ⟨r, by simp, rcLines2_mem hp⟩
    · obtain ⟨x, hx, hpx⟩ := ih hp
      exact ⟨x, by simp [hx], hpx⟩

theorem rowsFor_mem_strided (d : Int) (hd : 0 < d) {r : Nat} (hr : r ∈ rowsFor d) :
    ∃ k : Nat, r = k * d.toNat ∧ r < gridN := by
  have hk : 0 < d.toNat := by omega
  have hbound : r < gridN := by
    unfold rowsFor at hr
    rw [if_pos hd] at hr
    exact posSlice_mem_lt hk hr
  rw [rowsFor_pos_eq d hd] at hr
  obtain ⟨i, _, rfl⟩ := List.mem_map.mp hr
  exact ⟨i, rfl, hbound⟩

theorem rowsFor_mem_grid (d : Int) {r : Nat} (hr : r ∈ rowsFor d) : r < gridN := by
  have hg : gridN = 3000 := by norm_num [gridN, number_of_rows_cols]
  unfold rowsFor at hr
  split at hr
  · next hpos =>
    have hk : 0 < d.toNat := by omega
    exact posSlice_mem_lt hk hr
  · unfold negSlice at hr
    obtain ⟨i, _, rfl⟩ := List.mem_map.mp hr
    omega

/-- inverting a successful row or column generation without any assumption on
the stored parameters: every along-axis coordinate lies inside the grid and
every orthogonal pair repeats the row index. -/
theorem generateRowColLines_ok_inv {L G : Int} {raw iter : Nat}
    {l1 l2 : List (Nat × Nat)}
    (h : generateRowColLines L G raw iter = .ok (l1, l2)) :
    (∀ p ∈ l1, p.1 < gridN ∧ p.2 < gridN) ∧ (∀ p ∈ l2, p = (iter, iter)) := by
  simp only [generateRowColLines] at h
  by_cases hs : L + G ≤ 0
  · rw [if_pos hs] at h
    cases h
  · rw [if_neg hs] at h
    have hstepPos : 0 < (L + G).toNat := by omega
    split at h <;> split at h
    · rw [Except.ok.injEq, Prod.mk.injEq] at h
      obtain ⟨hl1, hl2⟩ := h
      constructor
      · rintro ⟨x, y⟩ hp
        rw [← hl1] at hp
        obtain ⟨hz1, hz2⟩ := List.of_mem_zip hp
        exact ⟨posSlice_mem_lt hstepPos (List.dropLast_subset _ hz1),
          posSlice_mem_lt hstepPos hz2⟩
      · intro p hp
        rw [← hl2] at hp
        exact List.eq_of_mem_replicate hp
    · cases h
    · rw [Except.ok.injEq, Prod.mk.injEq] at h
      obtain ⟨hl1, hl2⟩ := h
      constructor
      · rintro ⟨x, y⟩ hp
        rw [← hl1] at hp
        obtain ⟨hz1, hz2⟩ := List.of_mem_zip hp
        exact ⟨posSlice_mem_lt hstepPos hz1, posSlice_mem_lt hstepPos hz2⟩
      · intro p hp
        rw [← hl2] at hp
        exact List.eq_of_mem_replicate hp
    · cases h

/-- inverting a successful pass of the accumulation loop: all along-axis
coordinates stay inside the grid and all orthogonal pairs repeat a row index
satisfying the invariant P. -/
theorem allLoop_ok_inv {L G : Int} {src : Nat → Nat} (P : Nat → Prop) :
    ∀ (rows : List Nat) (i : Nat) (acc : Option (List (Nat × Nat) × List (Nat × Nat)))
      (A B : List (Nat × Nat)),
      allLoop L G src rows i acc = .ok (some (A, B)) →
      (∀ r ∈ rows, P r) →
      (∀ A0 B0, acc = some (A0, B0) →
        (∀ p ∈ A0, p.1 < gridN ∧ p.2 < gridN) ∧ (∀ p ∈ B0, ∃ r, P r ∧ p = (r, r))) →
      (∀ p ∈ A, p.1 < gridN ∧ p.2 < gridN) ∧ (∀ p ∈ B, ∃ r, P r ∧ p = (r, r))
  | [], i, acc, A, B => by
    intro h hrows hacc
    simp only [allLoop] at h
    rw [Except.ok.injEq] at h
    exact hacc A B h
  | r :: rs, i, acc, A, B => by
    intro h hrows hacc
    simp only [allLoop] at h
    cases hgen : generateRowColLines L G (src i) r with
    | error e => rw [hgen] at h; cases h
    | ok ab =>
      obtain ⟨a, b⟩ := ab
      rw [hgen] at h
      dsimp only at h
      obtain ⟨hamem, hbmem⟩ := generateRowColLines_ok_inv hgen
      have hPr : P r := hrows r (by simp)
      by_cases hr0 : r = 0
      · rw [if_pos hr0] at h
        refine allLoop_ok_inv P rs (i + 1) (some (a, b)) A B h
          (fun x hx => hrows x (by simp [hx])) ?_
        intro A0 B0 hab
        rw [Option.some.injEq, Prod.mk.injEq] at hab
        obtain ⟨ha0, hb0⟩ := hab
        subst ha0
        subst hb0
        exact ⟨hamem, fun p hp => ⟨r, hPr, hbmem p hp⟩⟩
      · rw [if_neg hr0] at h
        cases acc with
        | none => cases h
        | some ab0 =>
          obtain ⟨A0, B0⟩ := ab0
          obtain ⟨hA0, hB0⟩ := hacc A0 B0 rfl
          refine allLoop_ok_inv P rs (i + 1) (some (A0 ++ a, B0 ++ b)) A B h
            (fun x hx => hrows x (by simp [hx])) ?_
          intro A1 B1 hab
          rw [Option.some.injEq, Prod.mk.injEq] at hab
          obtain ⟨ha1, hb1⟩ := hab
          subst ha1
          subst hb1
          constructor
          · intro p hp
            rcases List.mem_append.mp hp with hp | hp
            · exact hA0 p hp
            · exact hamem p hp
          · intro p hp
            rcases List.mem_append.mp hp with hp | hp
            · exact hB0 p hp
            · exact ⟨r, hPr, hbmem p hp⟩

/-- inverting a successful full generation without assumptions on the stored
parameters. -/
theorem generateAllLines_ok_inv {L G d : Int} {src : Nat → Nat} {off : Nat}
    {A B : List (Nat × Nat)}
    (h : generateAllLines L G d src off = .ok (A, B)) :
    (∀ p ∈ A, p.1 < gridN ∧ p.2 < gridN) ∧
    (∀ p ∈ B, ∃ r, r ∈ rowsFor d ∧ p = (r, r)) := by
  unfold generateAllLines at h
  by_cases hd : d = 0
  · rw [if_pos hd] at h
    cases h
  · rw [if_neg hd] at h
    cases hloop : allLoop L G src (rowsFor d) off none with
    | error e => rw [hloop] at h; cases h
    | ok oacc =>
      rw [hloop] at h
      cases oacc with
      | none => cases h
      | some p0 =>
        obtain ⟨A0, B0⟩ := p0
        rw [Except.ok.injEq, Prod.mk.injEq] at h
        obtain ⟨hA, hB⟩ := h
        subst hA
        subst hB
        exact allLoop_ok_inv (fun r => r ∈ rowsFor d) (rowsFor d) off none A0 B0 hloop
          (fun r hr => hr) (fun A1 B1 hab => by cases hab)

theorem make_lines_eq_of_gen {s : LineFactory} {a : Args} {src : Nat → Nat}
    {h1 h2 v1 v2 : List (Nat × Nat)}
    (hH : generateAllLines (updateParams s a).line_length (updateParams s a).line_gap
      (updateParams s a).row_density src 0 = .ok (h1, h2))
    (hV : generateAllLines (updateParams s a).line_length (updateParams s a).line_gap
      (updateParams s a).column_density src
      (rowsFor (updateParams s a).row_density).length = .ok (v1, v2)) :
    make_lines s a src = .ok
      { updateParams s a with
        horizontal_lines_xs := h1
        horizontal_lines_ys := h2
        vertical_lines_xs := v2
        vertical_lines_ys := v1 } := by
  simp only [make_lines]
  rw [hH, hV]

theorem make_lines_ok_inv {s : LineFactory} {a : Args} {src : Nat → Nat} {s2 : LineFactory}
    (h : make_lines s a src = .ok s2) :
    ∃ h1 h2 v1 v2,
      generateAllLines (updateParams s a).line_length (updateParams s a).line_gap
        (updateParams s a).row_density src 0 = .ok (h1, h2) ∧
      generateAllLines (updateParams s a).line_length (updateParams s a).line_gap
        (updateParams s a).column_density src
        (rowsFor (updateParams s a).row_density).length = .ok (v1, v2) ∧
      s2 = { updateParams s a with
        horizontal_lines_xs := h1
        horizontal_lines_ys := h2
        vertical_lines_xs := v2
        vertical_lines_ys := v1 } := by
  simp only [make_lines] at h
  cases hH : generateAllLines (updateParams s a).line_length (updateParams s a).line_gap
      (updateParams s a).row_density src 0 with
  | error e => rw [hH] at h; cases h
  | ok hp =>
    obtain ⟨h1, h2⟩ := hp
    rw [hH] at h
    dsimp only at h
    cases hV : generateAllLines (updateParams s a).line_length (updateParams s a).line_gap
        (updateParams s a).column_density src
        (rowsFor (updateParams s a).row_density).length with
    | error e => rw [hV] at h; cases h
    | ok vp =>
      obtain ⟨v1, v2⟩ := vp
      rw [hV] at h
      dsimp only at h
      rw [Except.ok.injEq] at h
      exact ⟨h1, h2, v1, v2, rfl, rfl, h.symm⟩

theorem sliceLen_zero_anti {s t : Nat} (hs : 0 < s) (hst : s ≤ t) :
    sliceLen 0 t ≤ sliceLen 0 s := by
  have ht : 0 < t := by omega
  unfold sliceLen
  set m := (gridN - 0 + s - 1) / s with hm
  have hms : gridN ≤ m * s := by
    have h1 : gridN - 0 + s - 1 < (m + 1) * s := by
      rw [hm]
      exact (Nat.div_lt_iff_lt_mul hs).mp (Nat.lt_succ_self _)
    rw [Nat.succ_mul] at h1
    have hg : gridN = 3000 := by norm_num [gridN, number_of_rows_cols]
    omega
  have h2 : gridN - 0 + t - 1 < (m + 1) * t := by
    have hmt : m * s ≤ m * t := Nat.mul_le_mul_left m hst
    rw [Nat.succ_mul]
    omega
  have h3 := (Nat.div_lt_iff_lt_mul ht).mpr h2
  omega

theorem rowsFor_length_eq (d : Int) (hd : 0 < d) :
    (rowsFor d).length = sliceLen 0 d.toNat := by
  rw [rowsFor_pos_eq d hd]
  simp

theorem rcLines1_get (l g raw : Nat) (i : Nat) (h : i < (rcLines1 l g raw).length) :
    (rcLines1 l g raw).get ⟨i, h⟩ =
      (jit l g raw + i * (l + g), jit l g raw + l + i * (l + g)) := by
  simp [rcLines1, List.get_eq_getElem, List.getElem_map, List.getElem_range]

/-- C1: for every valid parameter pair (line_length and line_gap nonnegative,
not both zero) and any jitter draw, _generate_row_col_lines returns two
parallel collections of equal length, and every emitted along-axis pair spans
exactly line_length (end minus start); the trailing unmatched start is
dropped, so no segment shorter than line_length is ever emitted. -/
theorem C1_rowcol_parallel_full_length (L G : Nat) (h : 0 < L + G) (raw iter : Nat) :
    ∃ l1 l2, generateRowColLines (L : Int) (G : Int) raw iter = .ok (l1, l2) ∧
      l1.length = l2.length ∧ ∀ p ∈ l1, p.2 = p.1 + L := by
  refine ⟨rcLines1 L G raw, rcLines2 L G raw iter, ?_, ?_, ?_⟩
  · have hok := generateRowColLines_ok (L : Int) (G : Int) (Int.natCast_nonneg L)
      (Int.natCast_nonneg G) (by exact_mod_cast h) raw iter
    simpa using hok
  · rw [rcLines1_length, rcLines2_length]
  · intro p hp
    exact (rcLines1_mem h hp).1

/-- C1 witness at line_length 250, line_gap 50, jitter draw 0. -/
theorem C1_witness : 0 < 250 + 50 ∧
    ∃ l1 l2, generateRowColLines ((250 : Nat) : Int) ((50 : Nat) : Int) 0 0 = .ok (l1, l2) ∧
      l1.length = l2.length ∧ ∀ p ∈ l1, p.2 = p.1 + 250 :=
  ⟨by decide, C1_rowcol_parallel_full_length 250 50 (by decide) 0 0⟩

/-- C2: every orthogonal coordinate emitted within one row or column equals
that row or column's index, and every selected index is a multiple of the
stored density lying inside the grid below 3000. -/
theorem C2_orthogonal_and_strided (L G : Nat) (h : 0 < L + G) :
    (∀ raw iter, ∃ l1 l2, generateRowColLines (L : Int) (G : Int) raw iter = .ok (l1, l2) ∧
      ∀ p ∈ l2, p = (iter, iter)) ∧
    (∀ d : Nat, 0 < d → ∀ (src : Nat → Nat) (off : Nat), ∃ l1 l2,
      generateAllLines (L : Int) (G : Int) (d : Int) src off = .ok (l1, l2) ∧
      ∀ p ∈ l2, ∃ k : Nat, p.1 = k * d ∧ p.1 < gridN ∧ p.2 = p.1) := by
  have hL : (0 : Int) ≤ (L : Int) := Int.natCast_nonneg L
  have hG : (0 : Int) ≤ (G : Int) := Int.natCast_nonneg G
  have hs : (0 : Int) < (L : Int) + (G : Int) := by exact_mod_cast h
  constructor
  · intro raw iter
    refine ⟨rcLines1 L G raw, rcLines2 L G raw iter, ?_, ?_⟩
    · simpa using generateRowColLines_ok (L : Int) (G : Int) hL hG hs raw iter
    · intro p hp
      exact rcLines2_mem hp
  · intro d hd src off
    have hdi : (0 : Int) < (d : Int) := by exact_mod_cast hd
    refine ⟨allA L G src off (rowsFor (d : Int)), allB L G src off (rowsFor (d : Int)), ?_, ?_⟩
    · simpa using generateAllLines_ok (L : Int) (G : Int) hL hG hs (d : Int) hdi src off
    · intro p hp
      obtain ⟨r, hr, rfl⟩ := allB_mem hp
      obtain ⟨k, hk, hlt⟩ := rowsFor_mem_strided (d : Int) hdi hr
      exact ⟨k, by simpa using hk, hlt, rfl⟩

/-- C2 witness at line_length 250, line_gap 50, stored density 20. -/
theorem C2_witness :
    (∃ l1 l2, generateRowColLines ((250 : Nat) : Int) ((50 : Nat) : Int) 0 5 = .ok (l1, l2) ∧
      ∀ p ∈ l2, p = (5, 5)) ∧
    (∃ l1 l2, generateAllLines ((250 : Nat) : Int) ((50 : Nat) : Int) ((20 : Nat) : Int)
        src0 0 = .ok (l1, l2) ∧
      ∀ p ∈ l2, ∃ k : Nat, p.1 = k * 20 ∧ p.1 < gridN ∧ p.2 = p.1) := by
  obtain ⟨h1, h2⟩ := C2_orthogonal_and_strided 250 50 (by decide)
  exact ⟨h1 0 5, h2 20 (by decide) src0 0⟩

/-- C3 counterexample: constructing with line_length = 0 and line_gap = 0
raises the numpy empty-choice ValueError, which is not the ConfigurationError
with message GapOrLength must be positive that the claim promises. -/
theorem C3_counterexample :
    init 0 0 80 80 src0 = .error PyError.emptyChoiceValueError ∧
    PyError.emptyChoiceValueError ≠ PyError.configurationError := by
  constructor
  · rfl
  · decide

/-- C3 amended: when line_length and line_gap are both zero, construction does
fail loudly (no hang, no silent success), but with numpy's ValueError from
np.random.choice over an empty arange instead of a ConfigurationError; and
line_length = 0 with line_gap > 0 is accepted and succeeds. -/
theorem C3_amended :
    (∀ (cd rd : Int) (src : Nat → Nat), (100 : Int) - rd ≠ 0 →
      init 0 0 cd rd src = .error PyError.emptyChoiceValueError) ∧
    (∀ (cd rd : Int) (src : Nat → Nat), 0 ≤ cd → cd ≤ 90 → 0 ≤ rd → rd ≤ 90 →
      isOkE (init 0 1 cd rd src) = true) := by
  constructor
  · intro cd rd src hrd
    unfold init
    have hml := make_lines_step_le_zero
      ⟨0, 0, 100 - rd, 100 - cd, [], [], [], []⟩ noArgs src
      (by rw [updateParams_noArgs] <;> dsimp only <;> omega)
      (by rw [updateParams_noArgs] <;> dsimp only <;> exact hrd)
    rw [hml]
  · intro cd rd src hcd0 hcd90 hrd0 hrd90
    unfold init
    have hml := make_lines_ok ⟨0, 1, 100 - rd, 100 - cd, [], [], [], []⟩ noArgs src
      (by rw [updateParams_noArgs] <;> dsimp only <;> omega)
      (by rw [updateParams_noArgs] <;> dsimp only <;> omega)
      (by rw [updateParams_noArgs] <;> dsimp only <;> omega)
      (by rw [updateParams_noArgs] <;> dsimp only <;> omega)
      (by rw [updateParams_noArgs] <;> dsimp only <;> omega)
    rw [hml]
    rfl

/-- C3 witness: the amended behaviour at densities 80 and 80. -/
theorem C3_witness :
    init 0 0 80 80 (fun i => i) = .error PyError.emptyChoiceValueError ∧
    isOkE (init 0 1 80 80 (fun i => i)) = true := by
  obtain ⟨h1, h2⟩ := C3_amended
  exact ⟨h1 80 80 (fun i => i) (by decide),
    h2 80 80 (fun i => i) (by decide) (by decide) (by decide) (by decide)⟩

/-- C4 counterexample: starting from the valid generated state st1 (stored
line_length 250), the regenerate call badArgs (line_length := -50) fails with
the degenerate-stride error, yet the stored line_length of the object at the
moment the exception escapes is already -50, not the prior 250: the prior
state is not left unchanged. -/
theorem C4_counterexample :
    isOkE (make_lines st1 badArgs src0) = false ∧
    (errState (make_lines st1 badArgs src0)).line_length = -50 ∧
    st1.line_length = 250 := by
  refine ⟨rfl, rfl, rfl⟩

/-- C4 amended: when the updated stride line_length + line_gap is not positive,
make_lines fails before assigning any line set, so the four previously
computed LineSets are unchanged; but the object state carried at the failure is
updateParams s a, whose parameter fields have already been overwritten with the
supplied values (no validation precedes the writes). -/
theorem C4_amended (s : LineFactory) (a : Args) (src : Nat → Nat)
    (h : (updateParams s a).line_length + (updateParams s a).line_gap ≤ 0) :
    isOkE (make_lines s a src) = false ∧
    errState (make_lines s a src) = updateParams s a ∧
    (updateParams s a).horizontal_lines_xs = s.horizontal_lines_xs ∧
    (updateParams s a).horizontal_lines_ys = s.horizontal_lines_ys ∧
    (updateParams s a).vertical_lines_xs = s.vertical_lines_xs ∧
    (updateParams s a).vertical_lines_ys = s.vertical_lines_ys := by
  by_cases hd : (updateParams s a).row_density = 0
  · rw [make_lines_zero_density s a src hd]
    exact ⟨rfl, rfl, rfl, rfl, rfl, rfl⟩
  · rw [make_lines_step_le_zero s a src h hd]
    exact ⟨rfl, rfl, rfl, rfl, rfl, rfl⟩

/-- C4 witness: the amended behaviour at the concrete failing call. -/
theorem C4_witness :
    isOkE (make_lines st1 badArgs src0) = false ∧
    errState (make_lines st1 badArgs src0) = updateParams st1 badArgs ∧
    (updateParams st1 badArgs).horizontal_lines_xs = st1.horizontal_lines_xs ∧
    (updateParams st1 badArgs).horizontal_lines_ys = st1.horizontal_lines_ys ∧
    (updateParams st1 badArgs).vertical_lines_xs = st1.vertical_lines_xs ∧
    (updateParams st1 badArgs).vertical_lines_ys = st1.vertical_lines_ys :=
  C4_amended st1 badArgs src0 (by decide)

/-- C5 counterexample: the density -5 lies outside [0, 90], yet construction
succeeds without raising anything (no RangeError exists in the code). -/
theorem C5_counterexample : isOkE (init 250 50 (-5) (-5) src0) = true := by
  rfl

/-- C5 amended: density arguments are never validated: any densities whose
inverted stored values 100 - d are positive are silently accepted, for any
nonnegative line parameters with a positive stride, and generation succeeds. -/
theorem C5_amended (ll lg cd rd : Int) (hll : 0 ≤ ll) (hlg : 0 ≤ lg)
    (hs : 0 < ll + lg) (hcd : 0 < 100 - cd) (hrd : 0 < 100 - rd) (src : Nat → Nat) :
    isOkE (init ll lg cd rd src) = true := by
  unfold init
  have hml := make_lines_ok ⟨ll, lg, 100 - rd, 100 - cd, [], [], [], []⟩ noArgs src
    (by rw [updateParams_noArgs] <;> dsimp only <;> exact hll)
    (by rw [updateParams_noArgs] <;> dsimp only <;> exact hlg)
    (by rw [updateParams_noArgs] <;> dsimp only <;> exact hs)
    (by rw [updateParams_noArgs] <;> dsimp only <;> exact hrd)
    (by rw [updateParams_noArgs] <;> dsimp only <;> exact hcd)
  rw [hml]
  rfl

/-- C5 witness: the amended acceptance at the out-of-range density -5. -/
theorem C5_witness : isOkE (init 250 50 (-5) 80 src0) = true :=
  C5_amended 250 50 (-5) 80 (by decide) (by decide) (by decide) (by decide) (by decide) src0

/-- C6: an argument supplied as exactly 0 behaves identically to an omitted
argument (the stored parameter keeps its previous value, and the whole
make_lines call is unchanged), while any nonzero supplied value overwrites the
stored parameter, with densities inverted as 100 minus the value on write. -/
theorem C6_zero_is_omitted (s : LineFactory) (src : Nat → Nat) :
    updateParams s ⟨some 0, some 0, some 0, some 0⟩ = s ∧
    updateParams s ⟨some 0, none, none, none⟩ = s ∧
    updateParams s ⟨none, some 0, none, none⟩ = s ∧
    updateParams s ⟨none, none, some 0, none⟩ = s ∧
    updateParams s ⟨none, none, none, some 0⟩ = s ∧
    make_lines s ⟨some 0, some 0, some 0, some 0⟩ src = make_lines s noArgs src ∧
    make_lines s ⟨none, some 0, none, none⟩ src = make_lines s noArgs src ∧
    (∀ v : Int, v ≠ 0 → updateParams s ⟨some v, some v, some v, some v⟩ =
      { s with
        line_length := v
        line_gap := v
        row_density := 100 - v
        column_density := 100 - v }) := by
  have h0 : updateParams s ⟨some 0, some 0, some 0, some 0⟩ = s := by
    unfold updateParams truthy
    simp
  have h1 : updateParams s ⟨none, some 0, none, none⟩ = s := by
    unfold updateParams truthy
    simp
  refine ⟨h0, ?_, h1, ?_, ?_, ?_, ?_, ?_⟩
  · unfold updateParams truthy
    simp
  · unfold updateParams truthy
    simp
  · unfold updateParams truthy
    simp
  · simp only [make_lines, h0, updateParams_noArgs]
  · simp only [make_lines, h1, updateParams_noArgs]
  · intro v hv
    unfold updateParams truthy
    simp [hv]

/-- C6 witness at the state st1 and the overwrite value 7. -/
theorem C6_witness :
    updateParams st1 ⟨some 0, some 0, some 0, some 0⟩ = st1 ∧
    make_lines st1 ⟨none, some 0, none, none⟩ src0 = make_lines st1 noArgs src0 ∧
    updateParams st1 ⟨some 7, some 7, some 7, some 7⟩ =
      { st1 with
        line_length := 7
        line_gap := 7
        row_density := 100 - 7
        column_density := 100 - 7 } := by
  obtain ⟨h0, _, _, _, _, _, h2, h3⟩ := C6_zero_is_omitted st1 src0
  exact ⟨h0, h2, h3 7 (by decide)⟩

/-- C7: for user densities d1 less than d2 in [0, 90], the stored density of d2
is strictly smaller, and the number of row indices selected by striding the
grid is at least as large under d2 as under d1. -/
theorem C7_density_monotone (d1 d2 : Int) (h0 : 0 ≤ d1) (h12 : d1 < d2) (h2 : d2 ≤ 90) :
    100 - d2 < 100 - d1 ∧ (rowsFor (100 - d1)).length ≤ (rowsFor (100 - d2)).length := by
  refine ⟨by omega, ?_⟩
  have hp1 : (0 : Int) < 100 - d1 := by omega
  have hp2 : (0 : Int) < 100 - d2 := by omega
  rw [rowsFor_length_eq _ hp1, rowsFor_length_eq _ hp2]
  have hs2 : 0 < (100 - d2).toNat := by omega
  have hst : (100 - d2).toNat ≤ (100 - d1).toNat := by omega
  exact sliceLen_zero_anti hs2 hst

/-- C7 witness at user densities 50 and 80. -/
theorem C7_witness :
    (100 : Int) - 80 < 100 - 50 ∧ (rowsFor (100 - 50)).length ≤ (rowsFor (100 - 80)).length :=
  C7_density_monotone 50 80 (by decide) (by decide) (by decide)

/-- C8: with the jitter source replaced by a fixed deterministic function,
running make_lines a second time with the same arguments reproduces the state
of the first run exactly: binding a second identical call after the first is
the same as the first call alone. -/
theorem C8_regenerate_idempotent (s : LineFactory) (a : Args) (src : Nat → Nat) :
    (make_lines s a src).bind (fun s1 => make_lines s1 a src) = make_lines s a src := by
  cases hh : make_lines s a src with
  | error e => rfl
  | ok s1 =>
    show make_lines s1 a src = .ok s1
    obtain ⟨h1, h2, v1, v2, hH, hV, hs1⟩ := make_lines_ok_inv hh
    have hup : updateParams s1 a = s1 :=
      updateParams_of_params_eq s s1 a (by rw [hs1]) (by rw [hs1]) (by rw [hs1]) (by rw [hs1])
    have hH2 : generateAllLines (updateParams s1 a).line_length (updateParams s1 a).line_gap
        (updateParams s1 a).row_density src 0 = .ok (h1, h2) := by
      rw [hup, hs1]
      exact hH
    have hV2 : generateAllLines (updateParams s1 a).line_length (updateParams s1 a).line_gap
        (updateParams s1 a).column_density src
        (rowsFor (updateParams s1 a).row_density).length = .ok (v1, v2) := by
      rw [hup, hs1]
      exact hV
    rw [make_lines_eq_of_gen hH2 hV2, hup, hs1]

/-- C9: the example scenario: construction with line_length 250, line_gap 50
and densities 80 yields stored densities 20; the selected row indices are
exactly 0, 20, ..., 2980 (150 rows); and within each row, for every jitter
value, every segment spans exactly 250 inside [0, 3000), consecutive segment
starts are 300 apart, and a row holds 10 segments, or 9 when the trailing
incomplete segment is dropped. -/
theorem C9_example_scenario (src : Nat -> Nat) :
    (exists s, init 250 50 80 80 src = .ok s /\ s.line_length = 250 /\ s.line_gap = 50 /\
      s.row_density = 20 /\ s.column_density = 20) /\
    rowsFor 20 = (List.range 150).map (fun i => i * 20) /\
    (forall raw iter, exists l1 l2, generateRowColLines 250 50 raw iter = .ok (l1, l2) /\
      l1.length <= 10 /\
      (forall p, p ∈ l1 -> p.2 = p.1 + 250 /\ p.2 < 3000) /\
      (forall i, forall h1 : i < l1.length, forall h2 : i + 1 < l1.length,
        (l1.get ⟨i + 1, h2⟩).1 = (l1.get ⟨i, h1⟩).1 + 300) /\
      (raw % 300 < 50 -> l1.length = 10) /\ (50 <= raw % 300 -> l1.length = 9)) := by
  have hgrid : gridN = 3000 := by norm_num [gridN, number_of_rows_cols]
  have hml := make_lines_ok ⟨250, 50, 100 - 80, 100 - 80, [], [], [], []⟩ noArgs src
    (by rw [updateParams_noArgs] <;> dsimp only <;> omega)
    (by rw [updateParams_noArgs] <;> dsimp only <;> omega)
    (by rw [updateParams_noArgs] <;> dsimp only <;> omega)
    (by rw [updateParams_noArgs] <;> dsimp only <;> omega)
    (by rw [updateParams_noArgs] <;> dsimp only <;> omega)
  refine ⟨?_, by decide, ?_⟩
  · unfold init
    rw [hml]
    exact ⟨_, rfl, by norm_num [updateParams_noArgs], by norm_num [updateParams_noArgs],
      by norm_num [updateParams_noArgs], by norm_num [updateParams_noArgs]⟩
  · intro raw iter
    have hok := generateRowColLines_ok 250 50 (by norm_num) (by norm_num) (by norm_num)
      raw iter
    have hj : raw % 300 < 300 := Nat.mod_lt _ (by norm_num)
    have hn10 : raw % 300 < 50 -> rcN 250 50 raw = 10 := by
      intro h
      unfold rcN jit sliceLen
      rw [hgrid]
      norm_num
      omega
    have hn9 : 50 <= raw % 300 -> rcN 250 50 raw = 9 := by
      intro h
      unfold rcN jit sliceLen
      rw [hgrid]
      norm_num
      omega
    refine ⟨rcLines1 250 50 raw, rcLines2 250 50 raw iter, by simpa using hok,
      ?_, ?_, ?_, ?_, ?_⟩
    · rw [rcLines1_length]
      rcases Nat.lt_or_ge (raw % 300) 50 with hc | hc
      · rw [hn10 hc]
      · omega
    · intro p hp
      obtain ⟨he, hb⟩ := rcLines1_mem (by norm_num) hp
      rw [hgrid] at hb
      exact ⟨he, hb⟩
    · intro i h1 h2
      rw [rcLines1_get, rcLines1_get]
      dsimp only
      omega
    · intro h
      rw [rcLines1_length]
      exact hn10 h
    · intro h
      rw [rcLines1_length]
      exact hn9 h

/-- C9 witness at the zero jitter source. -/
theorem C9_witness :
    isOkE (init 250 50 80 80 src0) = true /\
    rowsFor 20 = (List.range 150).map (fun i => i * 20) /\
    (exists l1 l2, generateRowColLines 250 50 0 0 = .ok (l1, l2) /\ l1.length = 10) := by
  obtain ⟨⟨s, hs, _, _, _, _⟩, hrows, hrc⟩ := C9_example_scenario src0
  refine ⟨by rw [hs]; rfl, hrows, ?_⟩
  obtain ⟨l1, l2, hok, _, _, _, hlen10, _⟩ := hrc 0 0
  exact ⟨l1, l2, hok, hlen10 (by decide)⟩

/-- C10: after every successful make_lines run, every along-axis start and end
coordinate of both line sets is an element of the fixed array rows_cols =
arange(3000), and every orthogonal coordinate pair repeats a selected index
drawn from that array by striding with the stored density. -/
theorem C10_coordinates_within_grid (s : LineFactory) (a : Args) (src : Nat -> Nat)
    (s2 : LineFactory) (h : make_lines s a src = .ok s2) :
    (forall p, p ∈ s2.horizontal_lines_xs -> p.1 ∈ rows_cols /\ p.2 ∈ rows_cols) /\
    (forall p, p ∈ s2.vertical_lines_ys -> p.1 ∈ rows_cols /\ p.2 ∈ rows_cols) /\
    (forall p, p ∈ s2.horizontal_lines_ys -> p.1 ∈ rows_cols /\ p.2 = p.1 /\
      p.1 ∈ rowsFor s2.row_density) /\
    (forall p, p ∈ s2.vertical_lines_xs -> p.1 ∈ rows_cols /\ p.2 = p.1 /\
      p.1 ∈ rowsFor s2.column_density) := by
  obtain ⟨h1, h2, v1, v2, hH, hV, hs2⟩ := make_lines_ok_inv h
  obtain ⟨hHA, hHB⟩ := generateAllLines_ok_inv hH
  obtain ⟨hVA, hVB⟩ := generateAllLines_ok_inv hV
  subst hs2
  dsimp only
  refine ⟨?_, ?_, ?_, ?_⟩
  · intro p hp
    obtain ⟨hb1, hb2⟩ := hHA p hp
    exact ⟨mem_rows_cols.mpr hb1, mem_rows_cols.mpr hb2⟩
  · intro p hp
    obtain ⟨hb1, hb2⟩ := hVA p hp
    exact ⟨mem_rows_cols.mpr hb1, mem_rows_cols.mpr hb2⟩
  · intro p hp
    obtain ⟨r, hr, hpr⟩ := hHB p hp
    subst hpr
    exact ⟨mem_rows_cols.mpr (rowsFor_mem_grid _ hr), rfl, hr⟩
  · intro p hp
    obtain ⟨r, hr, hpr⟩ := hVB p hp
    subst hpr
    exact ⟨mem_rows_cols.mpr (rowsFor_mem_grid _ hr), rfl, hr⟩

/-- C10 witness at the concrete generated state st1. -/
theorem C10_witness :
    (forall p, p ∈ st1.horizontal_lines_xs -> p.1 ∈ rows_cols /\ p.2 ∈ rows_cols) /\
    (forall p, p ∈ st1.vertical_lines_ys -> p.1 ∈ rows_cols /\ p.2 ∈ rows_cols) /\
    (forall p, p ∈ st1.horizontal_lines_ys -> p.1 ∈ rows_cols /\ p.2 = p.1 /\
      p.1 ∈ rowsFor st1.row_density) /\
    (forall p, p ∈ st1.vertical_lines_xs -> p.1 ∈ rows_cols /\ p.2 = p.1 /\
      p.1 ∈ rowsFor st1.column_density) :=
  C10_coordinates_within_grid smallState noArgs src0 st1 (by rfl)

end LocationsOfLines
